import Mathlib

/-!
Verification development for the frame lifecycle and GPU resource
management engine of the learn-gfx-hal examples (clear_the_screen,
triangle_intro, textures, depth_buffer).  Each definition is a shallow
embedding of the corresponding Rust item; machine integers are modelled
as Nat with explicit reduction modulo 2 ^ 32 where the source performs
u32 arithmetic or an `as u32` cast.
-/

/-! ## cast_slice (depth_buffer.rs)

The function is generic over Pod element types T and U; the embedding
takes the sizes and alignments of T and U, the slice pointer and the
element count, and returns the resulting slice as (pointer, length).
-/

def cast_slice (sizeT alignT sizeU alignU ptr len : Nat) : Option (Nat × Nat) :=
  -- Handle ZST
  if sizeT = 0 ∨ sizeU = 0 then
    if sizeT = sizeU then some (ptr, len) else none
  -- Handle alignments
  else if alignT < alignU ∧ ptr % alignU ≠ 0 then
    none
  -- same size, so we direct cast, keeping the old length
  else if sizeT = sizeU then
    some (ptr, len)
  -- we might have slop, which would cause us to fail
  else if sizeT * len % sizeU > 0 then none
  else some (ptr, sizeT * len / sizeU)

/-! ## Row pitch computation (textures.rs / depth_buffer.rs, LoadedImage::new)

The source computes, in u32 arithmetic,
  row_alignment_mask = limits.min_buffer_copy_pitch_alignment as u32 - 1
  row_pitch = ((row_size as u32 + row_alignment_mask) and not row_alignment_mask) as usize
and the bitwise complement of a u32 value m is 2 ^ 32 - 1 - m.
-/

def pixelSize : Nat := 4

def rowSize (width : Nat) : Nat := pixelSize * width

def rowAlignmentMask (A : Nat) : Nat := (A % 2 ^ 32 + (2 ^ 32 - 1)) % 2 ^ 32

def rowPitch (A R : Nat) : Nat :=
  ((R % 2 ^ 32 + rowAlignmentMask A) % 2 ^ 32) &&& (2 ^ 32 - 1 - rowAlignmentMask A)

/-! ## Memory-type selection (textures.rs, BufferBundle::new and LoadedImage::new)

The source scans `memory_properties().memory_types.iter().enumerate()`
for the first entry satisfying
  requirements.type_mask and (1 << id) != 0
    and memory_type.properties.contains(REQUIRED)
where REQUIRED is CPU_VISIBLE for buffers and DEVICE_LOCAL for images.
A memory type is modelled by its property bit flags.
-/

def CPU_VISIBLE : Nat := 2

def DEVICE_LOCAL : Nat := 1

def memoryTypeMatches (typeMask required id props : Nat) : Bool :=
  typeMask &&& (1 <<< id) != 0 && (props &&& required == required)

def findMemoryTypeIdFrom (typeMask required : Nat) : Nat → List Nat → Option Nat
  | _, [] => none
  | id, props :: rest =>
    if memoryTypeMatches typeMask required id props then some id
    else findMemoryTypeIdFrom typeMask required (id + 1) rest

def findMemoryTypeId (typeMask : Nat) (types : List Nat) (required : Nat) : Option Nat :=
  findMemoryTypeIdFrom typeMask required 0 types

def bufferBundleMemoryTypeId (typeMask : Nat) (types : List Nat) : Option Nat :=
  findMemoryTypeId typeMask types CPU_VISIBLE

def loadedImageMemoryTypeId (typeMask : Nat) (types : List Nat) : Option Nat :=
  findMemoryTypeId typeMask types DEVICE_LOCAL

/-! ## Swapchain configuration (HalState::new)

Image count, from textures.rs / triangle_intro.rs / depth_buffer.rs:
  let image_count = if present_mode == PresentMode::Mailbox
    { (caps.image_count.end - 1).min(3) } else { (caps.image_count.end - 1).min(2) };
with `caps.image_count.end : u32` (wrapping subtraction in u32).

Extent, from textures.rs / depth_buffer.rs:
  width: caps.extents.end.width.min(window_client_area.width as u32), ... (same for height)
while triangle_intro.rs uses `caps.extents.end` unchanged.
-/

inductive PresentMode
  | mailbox
  | fifo
  | relaxed
  | immediate
deriving DecidableEq

def imageCount (maxImages : Nat) (pm : PresentMode) : Nat :=
  let m := (maxImages % 2 ^ 32 + (2 ^ 32 - 1)) % 2 ^ 32
  if pm = PresentMode.mailbox then min m 3 else min m 2

def resolvedExtent (capMaxW capMaxH winW winH : Nat) : Nat × Nat :=
  (min capMaxW winW, min capMaxH winH)

def triangleIntroExtent (capMaxW capMaxH winW winH : Nat) : Nat × Nat :=
  (capMaxW, capMaxH)

/-! ## Staged image upload (textures.rs / depth_buffer.rs, LoadedImage::new)

Steps 1-11 of the source: create a CPU-visible staging buffer of
row_pitch * height bytes, copy each source row y (row_size bytes, taken
from offset y * row_size of the decoded image) to offset y * row_pitch,
create the image, record barrier / copy / barrier into a one-shot
command buffer, submit with a dedicated fence, wait, then destroy the
fence, the staging bundle and the command buffer.
-/

inductive ImgAccess
  | noAccess
  | transferWrite
  | shaderRead
deriving DecidableEq

inductive ImgLayout
  | undefined
  | transferDstOptimal
  | shaderReadOnlyOptimal
deriving DecidableEq

inductive UploadEv
  | createStagingBuffer (size requiredProps : Nat)
  | mapAndWriteRows
  | createImage
  | barrier (srcAcc dstAcc : ImgAccess) (srcLay dstLay : ImgLayout)
  | copyBufferToImage
  | finishCommandBuffer
  | createFence
  | submitOneShot (withDedicatedFence : Bool)
  | waitForFence
  | destroyFence
  | destroyStagingBuffer
  | freeCommandBuffer
deriving DecidableEq

def uploadTrace (width height A : Nat) : List UploadEv :=
  [UploadEv.createStagingBuffer (rowPitch A (rowSize width) * height) CPU_VISIBLE,
   UploadEv.mapAndWriteRows,
   UploadEv.createImage,
   UploadEv.barrier ImgAccess.noAccess ImgAccess.transferWrite
     ImgLayout.undefined ImgLayout.transferDstOptimal,
   UploadEv.copyBufferToImage,
   UploadEv.barrier ImgAccess.transferWrite ImgAccess.shaderRead
     ImgLayout.transferDstOptimal ImgLayout.shaderReadOnlyOptimal,
   UploadEv.finishCommandBuffer,
   UploadEv.createFence,
   UploadEv.submitOneShot true,
   UploadEv.waitForFence,
   UploadEv.destroyFence,
   UploadEv.destroyStagingBuffer,
   UploadEv.freeCommandBuffer]

def isBarrierOrCopy : UploadEv → Bool
  | UploadEv.barrier _ _ _ _ => true
  | UploadEv.copyBufferToImage => true
  | _ => false

def isFenceOrCleanup : UploadEv → Bool
  | UploadEv.createFence => true
  | UploadEv.submitOneShot _ => true
  | UploadEv.waitForFence => true
  | UploadEv.destroyFence => true
  | UploadEv.destroyStagingBuffer => true
  | UploadEv.freeCommandBuffer => true
  | _ => false

def writeRow (img : Nat → Nat) (srcOff dstOff len : Nat) (buf : Nat → Option Nat) :
    Nat → Option Nat :=
  fun p => if dstOff ≤ p ∧ p < dstOff + len then some (img (srcOff + (p - dstOff))) else buf p

def stagingContents (img : Nat → Nat) (width height A : Nat) : Nat → Option Nat :=
  (List.range height).foldl
    (fun buf y => writeRow img (y * rowSize width) (y * rowPitch A (rowSize width))
      (rowSize width) buf)
    (fun _ => none)

/-! ## Frame scheduler (HalState::draw_clear_frame and friends)

Two levels of model.  First, the order of synchronisation operations in
one draw call, as a trace: triangle_intro.rs and clear_the_screen.rs
wait on the current slot's fence, reset it, then acquire an image;
textures.rs and depth_buffer.rs acquire the image first and then
wait/reset the fence indexed by the acquired image index.

Second, the current_frame bookkeeping with injected step outcomes:
triangle_intro.rs, textures.rs and depth_buffer.rs advance
current_frame before the first fallible step; clear_the_screen.rs
advances it only after every step (including present) has succeeded,
with MAX_FRAMES_IN_FLIGHT = 3.
-/

inductive DrawEv
  | waitFence (i : Nat)
  | resetFence (i : Nat)
  | acquireImage
  | recordCommands (i : Nat)
  | submit (fence : Nat)
  | present
deriving DecidableEq

def triangleIntroDrawTrace (slot imgIdx : Nat) : List DrawEv :=
  [DrawEv.waitFence slot, DrawEv.resetFence slot, DrawEv.acquireImage,
   DrawEv.recordCommands imgIdx, DrawEv.submit slot, DrawEv.present]

def clearScreenDrawTrace (slot imgIdx : Nat) : List DrawEv :=
  [DrawEv.waitFence slot, DrawEv.resetFence slot, DrawEv.acquireImage,
   DrawEv.recordCommands imgIdx, DrawEv.submit slot, DrawEv.present]

def texturesDrawTrace (slot imgIdx : Nat) : List DrawEv :=
  [DrawEv.acquireImage, DrawEv.waitFence imgIdx, DrawEv.resetFence imgIdx,
   DrawEv.recordCommands imgIdx, DrawEv.submit imgIdx, DrawEv.present]

def depthBufferDrawTrace (slot imgIdx : Nat) : List DrawEv :=
  [DrawEv.acquireImage, DrawEv.waitFence imgIdx, DrawEv.resetFence imgIdx,
   DrawEv.recordCommands imgIdx, DrawEv.submit imgIdx, DrawEv.present]

def slotFenceFirst (slot : Nat) (tr : List DrawEv) : Prop :=
  tr.take 3 = [DrawEv.waitFence slot, DrawEv.resetFence slot, DrawEv.acquireImage]

def waitImmediatelyReset (tr : List DrawEv) : Prop :=
  ∀ n i, tr.get? n = some (DrawEv.waitFence i) → tr.get? (n + 1) = some (DrawEv.resetFence i)

structure DrawOutcome where
  waitFenceOk : Bool
  resetFenceOk : Bool
  acquireOk : Bool
  presentOk : Bool

def triangleIntroDrawFrame (fif cf : Nat) (o : DrawOutcome) : Nat × Bool :=
  ((cf + 1) % fif, o.waitFenceOk && o.resetFenceOk && o.acquireOk && o.presentOk)

def texturesDrawFrame (fif cf : Nat) (o : DrawOutcome) : Nat × Bool :=
  ((cf + 1) % fif, o.acquireOk && o.waitFenceOk && o.resetFenceOk && o.presentOk)

def depthBufferDrawFrame (fif cf : Nat) (o : DrawOutcome) : Nat × Bool :=
  ((cf + 1) % fif, o.acquireOk && o.waitFenceOk && o.resetFenceOk && o.presentOk)

def clearScreenDrawFrame (cf : Nat) (o : DrawOutcome) : Nat × Bool :=
  if o.waitFenceOk && o.resetFenceOk && o.acquireOk && o.presentOk then ((cf + 1) % 3, true)
  else (cf, false)

def runDraws (fif : Nat) (os : List DrawOutcome) : Nat :=
  os.foldl (fun cf o => (triangleIntroDrawFrame fif cf o).1) 0

def clearScreenRunDraws (os : List DrawOutcome) : Nat :=
  os.foldl (fun cf o => (clearScreenDrawFrame cf o).1) 0

def allStepsOk (o : DrawOutcome) : Bool :=
  o.waitFenceOk && o.resetFenceOk && o.acquireOk && o.presentOk

/-! ## Teardown sequencer (HalState::drop, the four examples)

Each Drop implementation is modelled as the list of teardown events it
performs, parameterised by how many resources of each per-frame or
per-image category the HalState holds.  The userResource events stand
for the manually dropped user-owned bundles (vertex buffer, index
buffer, loaded texture: buffers, images and samplers).
-/

inductive Res
  | depthImage
  | descriptorSetLayout
  | fence
  | renderFinishedSem
  | imageAvailableSem
  | framebuffer
  | imageView
  | userResource
  | descriptorPool
  | pipelineLayout
  | graphicsPipeline
  | commandPool
  | renderPass
  | swapchain
  | device
  | apiInstance
deriving DecidableEq

inductive TeardownEvent
  | waitIdle
  | destroy (r : Res)
deriving DecidableEq

def claimedRank : Res → Nat
  | Res.depthImage => 0
  | Res.descriptorSetLayout => 1
  | Res.fence => 2
  | Res.renderFinishedSem => 3
  | Res.imageAvailableSem => 4
  | Res.framebuffer => 5
  | Res.imageView => 6
  | Res.userResource => 7
  | Res.descriptorPool => 8
  | Res.pipelineLayout => 9
  | Res.graphicsPipeline => 10
  | Res.commandPool => 11
  | Res.renderPass => 12
  | Res.swapchain => 13
  | Res.device => 14
  | Res.apiInstance => 15

def clearScreenRank : Res → Nat
  | Res.fence => 0
  | Res.renderFinishedSem => 1
  | Res.imageAvailableSem => 2
  | Res.commandPool => 3
  | Res.framebuffer => 4
  | Res.imageView => 5
  | Res.renderPass => 6
  | Res.swapchain => 7
  | Res.device => 8
  | Res.apiInstance => 9
  | _ => 10

def destroySeq (tr : List TeardownEvent) : List Res :=
  tr.filterMap fun e =>
    match e with
    | TeardownEvent.destroy r => some r
    | TeardownEvent.waitIdle => none

def depthBufferDropTrace (nDepth nLayouts nFence nRF nIA nFB nIV : Nat) : List TeardownEvent :=
  TeardownEvent.waitIdle ::
  (List.replicate nDepth (TeardownEvent.destroy Res.depthImage) ++
   List.replicate nLayouts (TeardownEvent.destroy Res.descriptorSetLayout) ++
   List.replicate nFence (TeardownEvent.destroy Res.fence) ++
   List.replicate nRF (TeardownEvent.destroy Res.renderFinishedSem) ++
   List.replicate nIA (TeardownEvent.destroy Res.imageAvailableSem) ++
   List.replicate nFB (TeardownEvent.destroy Res.framebuffer) ++
   List.replicate nIV (TeardownEvent.destroy Res.imageView) ++
   [TeardownEvent.destroy Res.userResource, TeardownEvent.destroy Res.userResource,
    TeardownEvent.destroy Res.userResource, TeardownEvent.destroy Res.descriptorPool,
    TeardownEvent.destroy Res.pipelineLayout, TeardownEvent.destroy Res.graphicsPipeline,
    TeardownEvent.destroy Res.commandPool, TeardownEvent.destroy Res.renderPass,
    TeardownEvent.destroy Res.swapchain, TeardownEvent.destroy Res.device,
    TeardownEvent.destroy Res.apiInstance])

def texturesDropTrace (nLayouts nFence nRF nIA nFB nIV : Nat) : List TeardownEvent :=
  TeardownEvent.waitIdle ::
  (List.replicate nLayouts (TeardownEvent.destroy Res.descriptorSetLayout) ++
   List.replicate nFence (TeardownEvent.destroy Res.fence) ++
   List.replicate nRF (TeardownEvent.destroy Res.renderFinishedSem) ++
   List.replicate nIA (TeardownEvent.destroy Res.imageAvailableSem) ++
   List.replicate nFB (TeardownEvent.destroy Res.framebuffer) ++
   List.replicate nIV (TeardownEvent.destroy Res.imageView) ++
   [TeardownEvent.destroy Res.userResource, TeardownEvent.destroy Res.userResource,
    TeardownEvent.destroy Res.userResource, TeardownEvent.destroy Res.descriptorPool,
    TeardownEvent.destroy Res.pipelineLayout, TeardownEvent.destroy Res.graphicsPipeline,
    TeardownEvent.destroy Res.commandPool, TeardownEvent.destroy Res.renderPass,
    TeardownEvent.destroy Res.swapchain, TeardownEvent.destroy Res.device,
    TeardownEvent.destroy Res.apiInstance])

def triangleIntroDropTrace (nFence nRF nIA nFB nIV : Nat) : List TeardownEvent :=
  TeardownEvent.waitIdle ::
  (List.replicate nFence (TeardownEvent.destroy Res.fence) ++
   List.replicate nRF (TeardownEvent.destroy Res.renderFinishedSem) ++
   List.replicate nIA (TeardownEvent.destroy Res.imageAvailableSem) ++
   List.replicate nFB (TeardownEvent.destroy Res.framebuffer) ++
   List.replicate nIV (TeardownEvent.destroy Res.imageView) ++
   [TeardownEvent.destroy Res.commandPool, TeardownEvent.destroy Res.renderPass,
    TeardownEvent.destroy Res.swapchain, TeardownEvent.destroy Res.device,
    TeardownEvent.destroy Res.apiInstance])

def clearScreenDropTrace (nFB nIV : Nat) : List TeardownEvent :=
  List.replicate 3 (TeardownEvent.destroy Res.fence) ++
  List.replicate 3 (TeardownEvent.destroy Res.renderFinishedSem) ++
  List.replicate 3 (TeardownEvent.destroy Res.imageAvailableSem) ++
  [TeardownEvent.destroy Res.commandPool] ++
  List.replicate nFB (TeardownEvent.destroy Res.framebuffer) ++
  List.replicate nIV (TeardownEvent.destroy Res.imageView) ++
  [TeardownEvent.destroy Res.renderPass, TeardownEvent.destroy Res.swapchain,
   TeardownEvent.destroy Res.device, TeardownEvent.destroy Res.apiInstance]

def teardownClaimHolds (tr : List TeardownEvent) : Prop :=
  tr.head? = some TeardownEvent.waitIdle ∧
  List.Pairwise (fun a b => claimedRank a ≤ claimedRank b) (destroySeq tr)

theorem land_high_mask (x k w : Nat) (hk : k ≤ w) (hx : x < 2 ^ w) :
    x &&& (2 ^ w - 2 ^ k) = x / 2 ^ k * 2 ^ k := by
  have hmask : 2 ^ w - 2 ^ k = (2 ^ (w - k) - 1) <<< k := by
    rw [Nat.shiftLeft_eq, Nat.sub_mul, Nat.one_mul, ← Nat.pow_add, Nat.sub_add_cancel hk]
  have hdiv : x / 2 ^ k * 2 ^ k = (x >>> k) <<< k := by
    rw [Nat.shiftRight_eq_div_pow, Nat.shiftLeft_eq]
  rw [hmask, hdiv]
  refine Nat.eq_of_testBit_eq fun i => ?_
  rw [Nat.testBit_and, Nat.testBit_shiftLeft, Nat.testBit_shiftLeft, Nat.testBit_shiftRight,
    Nat.testBit_two_pow_sub_one]
  rcases Nat.lt_or_ge i k with hik | hik
  · have h0 : ¬ (i ≥ k) := by omega
    simp [h0]
  · have h1 : k + (i - k) = i := by omega
    rw [h1]
    by_cases hb : x.testBit i = true
    · have hi : i < w := by
        by_contra hcon
        have hxi : x < 2 ^ i :=
          Nat.lt_of_lt_of_le hx (Nat.pow_le_pow_right (by omega) (Nat.le_of_not_lt hcon))
        rw [Nat.testBit_lt_two_pow hxi] at hb
        exact Bool.false_ne_true hb
      have h2 : i - k < w - k := by omega
      simp [hb, hik, h2]
    · have hb' : x.testBit i = false := by
        cases h : x.testBit i
        · rfl
        · exact absurd h hb
      simp [hb']

theorem rowPitch_eq (k A R : Nat) (hA : A = 2 ^ k) (hk : k < 32) (hov : R + A ≤ 2 ^ 32) :
    rowPitch A R = (R + A - 1) / A * A := by
  subst hA
  have hA1 : 1 ≤ 2 ^ k := Nat.one_le_two_pow
  have hAlt : 2 ^ k < 2 ^ 32 := Nat.pow_lt_pow_right (by omega) hk
  have hmask : rowAlignmentMask (2 ^ k) = 2 ^ k - 1 := by
    unfold rowAlignmentMask
    rw [Nat.mod_eq_of_lt hAlt]
    omega
  have hR : R % 2 ^ 32 = R := Nat.mod_eq_of_lt (by omega)
  have hsum : (R + (2 ^ k - 1)) % 2 ^ 32 = R + 2 ^ k - 1 := by
    rw [Nat.mod_eq_of_lt (by omega)]; omega
  have hcomp : 2 ^ 32 - 1 - (2 ^ k - 1) = 2 ^ 32 - 2 ^ k := by omega
  unfold rowPitch
  rw [hmask, hR, hsum, hcomp]
  exact land_high_mask (R + 2 ^ k - 1) k 32 (by omega) (by omega)

/-! ## Helper lemmas for the teardown traces -/

def resBlocks (bs : List (Nat × Res)) : List Res :=
  bs.foldr (fun b acc => List.replicate b.1 b.2 ++ acc) []

theorem resBlocks_nil : resBlocks [] = [] := rfl

theorem resBlocks_cons (b : Nat × Res) (bs : List (Nat × Res)) :
    resBlocks (b :: bs) = List.replicate b.1 b.2 ++ resBlocks bs := rfl

theorem mem_resBlocks {r : Res} {bs : List (Nat × Res)} (h : r ∈ resBlocks bs) :
    ∃ b ∈ bs, r = b.2 := by
  induction bs with
  | nil => simp [resBlocks] at h
  | cons b bs ih =>
    rw [resBlocks_cons] at h
    rcases List.mem_append.mp h with h1 | h1
    · exact ⟨b, List.mem_cons_self b bs, (List.eq_of_mem_replicate h1)⟩
    · obtain ⟨c, hc, hr⟩ := ih h1
      exact ⟨c, List.mem_cons_of_mem b hc, hr⟩

theorem pairwise_resBlocks (f : Res → Nat) (bs : List (Nat × Res))
    (h : List.Pairwise (fun x y => f x.2 ≤ f y.2) bs) :
    List.Pairwise (fun a b => f a ≤ f b) (resBlocks bs) := by
  induction bs with
  | nil => exact List.Pairwise.nil
  | cons b bs ih =>
    rw [resBlocks_cons]
    rcases List.pairwise_cons.mp h with ⟨hb, htail⟩
    refine List.pairwise_append.mpr ⟨?_, ih htail, ?_⟩
    · exact List.pairwise_replicate.mpr (Or.inr (Nat.le_refl _))
    · intro x hx y hy
      obtain rfl := List.eq_of_mem_replicate hx
      obtain ⟨c, hc, rfl⟩ := mem_resBlocks hy
      exact hb c hc

theorem destroySeq_append (l r : List TeardownEvent) :
    destroySeq (l ++ r) = destroySeq l ++ destroySeq r := by
  simp [destroySeq, List.filterMap_append]

theorem destroySeq_replicate (n : Nat) (r : Res) :
    destroySeq (List.replicate n (TeardownEvent.destroy r)) = List.replicate n r := by
  induction n with
  | zero => rfl
  | succ n ih =>
    simp only [List.replicate_succ, destroySeq, List.filterMap_cons] at ih ⊢
    rw [ih]

theorem destroySeq_nil : destroySeq [] = [] := rfl

theorem destroySeq_cons_waitIdle (tr : List TeardownEvent) :
    destroySeq (TeardownEvent.waitIdle :: tr) = destroySeq tr := rfl

theorem destroySeq_cons_destroy (r : Res) (tr : List TeardownEvent) :
    destroySeq (TeardownEvent.destroy r :: tr) = r :: destroySeq tr := rfl

/-- C1: on teardown of a fully constructed HalState the device-idle wait
comes first and the destroy calls follow the claimed category order.
This holds for depth_buffer.rs, textures.rs and triangle_intro.rs (absent
categories skipped), but clear_the_screen.rs performs no device-idle wait
at all and destroys the command pool right after the image-available
semaphores, before the framebuffers and image views; the remainder of its
order is as claimed (captured by clearScreenRank). -/
theorem c1_teardown_order (nDepth nLayouts nFence nRF nIA nFB nIV : Nat) :
    teardownClaimHolds (depthBufferDropTrace nDepth nLayouts nFence nRF nIA nFB nIV) ∧
    teardownClaimHolds (texturesDropTrace nLayouts nFence nRF nIA nFB nIV) ∧
    teardownClaimHolds (triangleIntroDropTrace nFence nRF nIA nFB nIV) ∧
    TeardownEvent.waitIdle ∉ clearScreenDropTrace nFB nIV ∧
    List.Pairwise (fun a b => clearScreenRank a ≤ clearScreenRank b)
      (destroySeq (clearScreenDropTrace nFB nIV)) := by
  refine ⟨⟨rfl, ?_⟩, ⟨rfl, ?_⟩, ⟨rfl, ?_⟩, ?_, ?_⟩
  · have h := pairwise_resBlocks claimedRank
      [(nDepth, Res.depthImage), (nLayouts, Res.descriptorSetLayout), (nFence, Res.fence),
       (nRF, Res.renderFinishedSem), (nIA, Res.imageAvailableSem), (nFB, Res.framebuffer),
       (nIV, Res.imageView), (1, Res.userResource), (1, Res.userResource),
       (1, Res.userResource), (1, Res.descriptorPool), (1, Res.pipelineLayout),
       (1, Res.graphicsPipeline), (1, Res.commandPool), (1, Res.renderPass),
       (1, Res.swapchain), (1, Res.device), (1, Res.apiInstance)]
      (by simp [List.pairwise_cons, claimedRank])
    simp only [resBlocks_cons, resBlocks_nil, List.replicate_one, List.singleton_append,
      List.append_nil] at h
    simp only [depthBufferDropTrace, destroySeq_cons_waitIdle, destroySeq_append,
      destroySeq_replicate, destroySeq_cons_destroy, destroySeq_nil, List.append_assoc]
    exact h
  · have h := pairwise_resBlocks claimedRank
      [(nLayouts, Res.descriptorSetLayout), (nFence, Res.fence),
       (nRF, Res.renderFinishedSem), (nIA, Res.imageAvailableSem), (nFB, Res.framebuffer),
       (nIV, Res.imageView), (1, Res.userResource), (1, Res.userResource),
       (1, Res.userResource), (1, Res.descriptorPool), (1, Res.pipelineLayout),
       (1, Res.graphicsPipeline), (1, Res.commandPool), (1, Res.renderPass),
       (1, Res.swapchain), (1, Res.device), (1, Res.apiInstance)]
      (by simp [List.pairwise_cons, claimedRank])
    simp only [resBlocks_cons, resBlocks_nil, List.replicate_one, List.singleton_append,
      List.append_nil] at h
    simp only [texturesDropTrace, destroySeq_cons_waitIdle, destroySeq_append,
      destroySeq_replicate, destroySeq_cons_destroy, destroySeq_nil, List.append_assoc]
    exact h
  · have h := pairwise_resBlocks claimedRank
      [(nFence, Res.fence), (nRF, Res.renderFinishedSem), (nIA, Res.imageAvailableSem),
       (nFB, Res.framebuffer), (nIV, Res.imageView), (1, Res.commandPool),
       (1, Res.renderPass), (1, Res.swapchain), (1, Res.device), (1, Res.apiInstance)]
      (by simp [List.pairwise_cons, claimedRank])
    simp only [resBlocks_cons, resBlocks_nil, List.replicate_one, List.singleton_append,
      List.append_nil] at h
    simp only [triangleIntroDropTrace, destroySeq_cons_waitIdle, destroySeq_append,
      destroySeq_replicate, destroySeq_cons_destroy, destroySeq_nil, List.append_assoc]
    exact h
  · simp [clearScreenDropTrace, List.mem_append, List.mem_replicate]
  · have h := pairwise_resBlocks clearScreenRank
      [(3, Res.fence), (3, Res.renderFinishedSem), (3, Res.imageAvailableSem),
       (1, Res.commandPool), (nFB, Res.framebuffer), (nIV, Res.imageView),
       (1, Res.renderPass), (1, Res.swapchain), (1, Res.device), (1, Res.apiInstance)]
      (by simp [List.pairwise_cons, clearScreenRank])
    simp only [resBlocks_cons, resBlocks_nil, List.replicate_one, List.singleton_append,
      List.append_nil] at h
    simp only [clearScreenDropTrace, destroySeq_append, destroySeq_replicate,
      destroySeq_cons_destroy, destroySeq_nil, List.append_assoc, List.singleton_append]
    exact h

/-- C1 counterexample: the claim fails on clear_the_screen.rs at a
HalState with 3 swapchain images: its Drop performs no device-idle wait
before destroying resources, and destroys the command pool before the
framebuffers and image views. -/
theorem c1_clear_screen_counterexample :
    ¬ teardownClaimHolds (clearScreenDropTrace 3 3) :=
  fun h => absurd h.1 (by decide)

/-- C2: the claim that every draw-frame call first waits on the current
slot's fence, then resets that same fence, and only then acquires the
next swapchain image holds for triangle_intro.rs and clear_the_screen.rs;
textures.rs and depth_buffer.rs instead acquire the image first and then
wait on and reset the fence indexed by the acquired image index.  In all
four draw paths every fence wait is immediately followed by a reset of
the same fence, after which the submit signals it again. -/
theorem c2_fence_wait_order (slot imgIdx : Nat) :
    slotFenceFirst slot (triangleIntroDrawTrace slot imgIdx) ∧
    slotFenceFirst slot (clearScreenDrawTrace slot imgIdx) ∧
    (texturesDrawTrace slot imgIdx).take 3 =
      [DrawEv.acquireImage, DrawEv.waitFence imgIdx, DrawEv.resetFence imgIdx] ∧
    (depthBufferDrawTrace slot imgIdx).take 3 =
      [DrawEv.acquireImage, DrawEv.waitFence imgIdx, DrawEv.resetFence imgIdx] ∧
    waitImmediatelyReset (triangleIntroDrawTrace slot imgIdx) ∧
    waitImmediatelyReset (clearScreenDrawTrace slot imgIdx) ∧
    waitImmediatelyReset (texturesDrawTrace slot imgIdx) ∧
    waitImmediatelyReset (depthBufferDrawTrace slot imgIdx) := by
  refine ⟨rfl, rfl, rfl, rfl, ?_, ?_, ?_, ?_⟩ <;>
  · intro n i h
    rcases n with _ | _ | _ | _ | _ | _ | n <;>
      simp_all [triangleIntroDrawTrace, clearScreenDrawTrace, texturesDrawTrace,
        depthBufferDrawTrace, waitImmediatelyReset]

/-- C2 counterexample: the draw_clear_frame of textures.rs, at slot 0
with acquired image index 1, acquires the swapchain image before any
fence wait, so its trace does not start with a wait and reset of the
slot's fence. -/
theorem c2_textures_counterexample :
    ¬ slotFenceFirst 0 (texturesDrawTrace 0 1) := by
  intro h
  simp [slotFenceFirst, texturesDrawTrace] at h

/-- C3: triangle_intro.rs, textures.rs and depth_buffer.rs advance
current_frame by one modulo frames_in_flight before any fallible step,
so it is advanced no matter which step fails; clear_the_screen.rs
advances current_frame only when every step up to and including present
succeeded, so a failed call leaves current_frame unchanged. -/
theorem c3_advance_before_fallible (fif cf : Nat) (o : DrawOutcome) :
    (triangleIntroDrawFrame fif cf o).1 = (cf + 1) % fif ∧
    (texturesDrawFrame fif cf o).1 = (cf + 1) % fif ∧
    (depthBufferDrawFrame fif cf o).1 = (cf + 1) % fif ∧
    (clearScreenDrawFrame cf o).2 = allStepsOk o ∧
    (clearScreenDrawFrame cf o).1 = (if allStepsOk o then (cf + 1) % 3 else cf) := by
  refine ⟨rfl, rfl, rfl, ?_, ?_⟩ <;>
    simp only [clearScreenDrawFrame, allStepsOk] <;> split <;> simp_all

/-- C3 counterexample: in clear_the_screen.rs a draw-frame call whose
acquire step fails returns an error with current_frame still 0, not
advanced to (0 + 1) mod 3 = 1 as the claim requires. -/
theorem c3_clear_screen_counterexample :
    (clearScreenDrawFrame 0 ⟨true, true, false, true⟩).2 = false ∧
    (clearScreenDrawFrame 0 ⟨true, true, false, true⟩).1 = 0 ∧
    (0 + 1) % 3 ≠ 0 := by decide

theorem foldl_advance (fif : Nat) (hpos : 0 < fif) :
    ∀ (os : List DrawOutcome) (cf : Nat), cf < fif →
      os.foldl (fun c _ => (c + 1) % fif) cf = (cf + os.length) % fif := by
  intro os
  induction os with
  | nil => intro cf h; simp [Nat.mod_eq_of_lt h]
  | cons o os ih =>
    intro cf h
    simp only [List.foldl_cons, List.length_cons]
    rw [ih ((cf + 1) % fif) (Nat.mod_lt _ hpos), Nat.mod_add_mod]
    congr 1
    omega

theorem clear_foldl_ok :
    ∀ (os : List DrawOutcome) (cf : Nat), cf < 3 → (∀ o ∈ os, allStepsOk o = true) →
      os.foldl (fun c o => (clearScreenDrawFrame c o).1) cf = (cf + os.length) % 3 := by
  intro os
  induction os with
  | nil => intro cf h _; simp [Nat.mod_eq_of_lt h]
  | cons o os ih =>
    intro cf h hall
    have ho : allStepsOk o = true := hall o (List.mem_cons_self o os)
    simp only [allStepsOk] at ho
    simp only [List.foldl_cons, List.length_cons]
    have hstep : (clearScreenDrawFrame cf o).1 = (cf + 1) % 3 := by
      simp [clearScreenDrawFrame, ho]
    rw [hstep, ih ((cf + 1) % 3) (Nat.mod_lt _ (by omega))
      (fun o' ho' => hall o' (List.mem_cons_of_mem _ ho')), Nat.mod_add_mod]
    congr 1
    omega

/-- C4: for frames_in_flight in {2,3}, the slot index used by the n-th
draw call is n mod frames_in_flight, the sequence is periodic with that
period and never repeats within a period.  This holds unconditionally
for the triangle_intro.rs scheduler (current_frame advances before any
fallible step, so also on failed calls), and for clear_the_screen.rs
(frames_in_flight fixed at 3) only for sequences of successful calls,
since there a failed call does not advance current_frame. -/
theorem c4_slot_rotation (fif : Nat) (h : fif = 2 ∨ fif = 3) :
    (∀ os : List DrawOutcome, runDraws fif os = os.length % fif) ∧
    (∀ os : List DrawOutcome, (∀ o ∈ os, allStepsOk o = true) →
      clearScreenRunDraws os = os.length % 3) ∧
    (∀ os os' : List DrawOutcome, os'.length = os.length + fif →
      runDraws fif os' = runDraws fif os) ∧
    (∀ os os' : List DrawOutcome, os.length < fif → os'.length < fif →
      runDraws fif os = runDraws fif os' → os.length = os'.length) := by
  have hpos : 0 < fif := by omega
  have h1 : ∀ os : List DrawOutcome, runDraws fif os = os.length % fif := by
    intro os
    have hr : runDraws fif os = os.foldl (fun c _ => (c + 1) % fif) 0 := rfl
    rw [hr, foldl_advance fif hpos os 0 hpos, Nat.zero_add]
  refine ⟨h1, ?_, ?_, ?_⟩
  · intro os hall
    have hr : clearScreenRunDraws os = os.foldl (fun c o => (clearScreenDrawFrame c o).1) 0 := rfl
    rw [hr, clear_foldl_ok os 0 (by omega) hall]
    omega
  · intro os os' hlen
    rw [h1, h1, hlen]
    exact Nat.add_mod_right _ _
  · intro os os' hl hl' heq
    rw [h1, h1, Nat.mod_eq_of_lt hl, Nat.mod_eq_of_lt hl'] at heq
    exact heq

/-- C4 counterexample: in clear_the_screen.rs, after one draw call whose
acquire step failed, the next call (call number 1 counting from 0) uses
slot 0 rather than 1 mod 3 = 1: a failed call stalls the rotation. -/
theorem c4_clear_screen_counterexample :
    clearScreenRunDraws [⟨true, true, false, true⟩] = 0 ∧ (1 : Nat) % 3 = 1 ∧ (0 : Nat) ≠ 1 := by
  decide

/-- C4 witness: the theorem instantiated at frames_in_flight = 2. -/
theorem c4_slot_rotation_witness :
    (∀ os : List DrawOutcome, runDraws 2 os = os.length % 2) ∧
    (∀ os : List DrawOutcome, (∀ o ∈ os, allStepsOk o = true) →
      clearScreenRunDraws os = os.length % 3) ∧
    (∀ os os' : List DrawOutcome, os'.length = os.length + 2 →
      runDraws 2 os' = runDraws 2 os) ∧
    (∀ os os' : List DrawOutcome, os.length < 2 → os'.length < 2 →
      runDraws 2 os = runDraws 2 os' → os.length = os'.length) :=
  c4_slot_rotation 2 (Or.inl rfl)

theorem rowPitch_ge (k A R : Nat) (hA : A = 2 ^ k) (hk : k < 32) (hov : R + A ≤ 2 ^ 32) :
    R ≤ rowPitch A R := by
  have hA1 : 0 < A := by subst hA; exact Nat.pow_pos (by omega)
  rw [rowPitch_eq k A R hA hk hov]
  have hdm := Nat.div_add_mod (R + A - 1) A
  have hmlt : (R + A - 1) % A < A := Nat.mod_lt _ hA1
  have hmc : (R + A - 1) / A * A = A * ((R + A - 1) / A) := Nat.mul_comm _ _
  omega

theorem rowPitch_mod (k A R : Nat) (hA : A = 2 ^ k) (hk : k < 32) (hov : R + A ≤ 2 ^ 32) :
    rowPitch A R % A = 0 := by
  rw [rowPitch_eq k A R hA hk hov]
  simp [Nat.mul_mod_left]

theorem rowPitch_min (k A R : Nat) (hA : A = 2 ^ k) (hk : k < 32) (hov : R + A ≤ 2 ^ 32)
    (Q : Nat) (hQR : R ≤ Q) (hQm : Q % A = 0) : rowPitch A R ≤ Q := by
  have hA1 : 0 < A := by subst hA; exact Nat.pow_pos (by omega)
  rw [rowPitch_eq k A R hA hk hov]
  obtain ⟨q, rfl⟩ : A ∣ Q := Nat.dvd_of_mod_eq_zero hQm
  have hle : (R + A - 1) / A ≤ q := by
    have h2 : (q + 1) * A = A * q + A := by ring
    have h3 : R + A - 1 < (q + 1) * A := by omega
    have h4 := (Nat.div_lt_iff_lt_mul hA1).mpr h3
    omega
  calc (R + A - 1) / A * A ≤ q * A := Nat.mul_le_mul_right A hle
    _ = A * q := Nat.mul_comm _ _

theorem rowPitch_idem (k A R : Nat) (hA : A = 2 ^ k) (hk : k < 32) (hov : R + A ≤ 2 ^ 32) :
    rowPitch A (rowPitch A R) = rowPitch A R := by
  have hA1 : 0 < A := by subst hA; exact Nat.pow_pos (by omega)
  have hPle : rowPitch A R ≤ R + A - 1 := by
    rw [rowPitch_eq k A R hA hk hov]
    exact Nat.div_mul_le_self _ _
  have hdvd32 : A ∣ 2 ^ 32 := by subst hA; exact Nat.pow_dvd_pow 2 (by omega)
  have hdvdP : A ∣ rowPitch A R := Nat.dvd_of_mod_eq_zero (rowPitch_mod k A R hA hk hov)
  have hov' : rowPitch A R + A ≤ 2 ^ 32 := by
    have h1 : A ∣ 2 ^ 32 - rowPitch A R := Nat.dvd_sub' hdvd32 hdvdP
    have h2 : 0 < 2 ^ 32 - rowPitch A R := by omega
    have h3 : A ≤ 2 ^ 32 - rowPitch A R := Nat.le_of_dvd h2 h1
    omega
  rw [rowPitch_eq k A (rowPitch A R) hA hk hov']
  obtain ⟨q, hq⟩ := hdvdP
  rw [hq]
  have h4 : A * q + A - 1 = A * q + (A - 1) := by omega
  rw [h4, Nat.mul_add_div hA1, Nat.div_eq_of_lt (by omega), Nat.add_zero]
  exact Nat.mul_comm q A

/-- C6: for a power-of-two alignment A and row size R the computed pitch
P satisfies P >= R, P mod A = 0, P is the least such value, and the
computation is idempotent, PROVIDED the u32 arithmetic does not wrap:
A = 2 ^ k with k < 32 and R + A <= 2 ^ 32.  Without that proviso the
claim is false, because the source casts row_size to u32 and adds the
mask in u32 (see the counterexample). -/
theorem c6_row_pitch_correct (k A R : Nat) (hA : A = 2 ^ k) (hk : k < 32)
    (hov : R + A ≤ 2 ^ 32) :
    R ≤ rowPitch A R ∧ rowPitch A R % A = 0 ∧
    (∀ Q, R ≤ Q → Q % A = 0 → rowPitch A R ≤ Q) ∧
    rowPitch A (rowPitch A R) = rowPitch A R :=
  ⟨rowPitch_ge k A R hA hk hov, rowPitch_mod k A R hA hk hov,
   fun Q h1 h2 => rowPitch_min k A R hA hk hov Q h1 h2,
   rowPitch_idem k A R hA hk hov⟩

/-- C6 counterexample: alignment A = 2 (a power of two, A >= 1) and
tightly packed row size R = 2 ^ 32 (a 4-byte-pixel row of width 2 ^ 30):
the `as u32` cast truncates R to 0 and the computed pitch is 0 < R,
violating P >= R. -/
theorem c6_overflow_counterexample :
    rowPitch 2 (2 ^ 32) = 0 ∧ ¬ (2 ^ 32 ≤ rowPitch 2 (2 ^ 32)) := by decide

/-- C6 witness: the amended theorem at k = 3, A = 8, R = 100. -/
theorem c6_row_pitch_witness :
    100 ≤ rowPitch 8 100 ∧ rowPitch 8 100 % 8 = 0 ∧
    (∀ Q, 100 ≤ Q → Q % 8 = 0 → rowPitch 8 100 ≤ Q) ∧
    rowPitch 8 (rowPitch 8 100) = rowPitch 8 100 :=
  c6_row_pitch_correct 3 8 100 rfl (by decide) (by decide)

theorem stagingContents_succ (img : Nat → Nat) (width height A : Nat) :
    stagingContents img width (height + 1) A =
      writeRow img (height * rowSize width) (height * rowPitch A (rowSize width))
        (rowSize width) (stagingContents img width height A) := by
  unfold stagingContents
  rw [List.range_succ, List.foldl_append, List.foldl_cons, List.foldl_nil]

theorem stagingContents_row (img : Nat → Nat) (width A : Nat)
    (hpitch : rowSize width ≤ rowPitch A (rowSize width)) :
    ∀ height y x, y < height → x < rowSize width →
      stagingContents img width height A (y * rowPitch A (rowSize width) + x) =
        some (img (y * rowSize width + x)) := by
  intro height
  induction height with
  | zero => intro y x hy _; exact absurd hy (Nat.not_lt_zero y)
  | succ height ih =>
    intro y x hy hx
    rw [stagingContents_succ]
    simp only [writeRow]
    by_cases hyh : y = height
    · subst hyh
      rw [if_pos ⟨Nat.le_add_right _ _, by omega⟩]
      have hsub : y * rowPitch A (rowSize width) + x - y * rowPitch A (rowSize width) = x := by
        omega
      rw [hsub]
    · have hylt : y < height := by omega
      rw [if_neg, ih y x hylt hx]
      intro hcon
      obtain ⟨h1, -⟩ := hcon
      have h2 : (y + 1) * rowPitch A (rowSize width) ≤ height * rowPitch A (rowSize width) :=
        Nat.mul_le_mul_right _ (by omega)
      have h3 : (y + 1) * rowPitch A (rowSize width) =
          y * rowPitch A (rowSize width) + rowPitch A (rowSize width) := by ring
      omega

/-- C5: the image upload creates the staging buffer with exactly
row_pitch * height bytes requesting CPU-visible memory, copies each
source row y to offset y * row_pitch of the staging buffer, records
exactly two image barriers around the buffer-to-image copy with the
claimed access/layout transitions, and after finishing the command
buffer creates a dedicated fence, submits with it, waits on it, then
destroys the fence, the staging buffer and the one-shot command buffer
before returning (stated for non-wrapping u32 pitch arithmetic). -/
theorem c5_upload_protocol (width height A k : Nat) (img : Nat → Nat)
    (hA : A = 2 ^ k) (hk : k < 32) (hov : rowSize width + A ≤ 2 ^ 32) :
    (uploadTrace width height A).head? =
      some (UploadEv.createStagingBuffer (rowPitch A (rowSize width) * height) CPU_VISIBLE) ∧
    (∀ y x, y < height → x < rowSize width →
      stagingContents img width height A (y * rowPitch A (rowSize width) + x) =
        some (img (y * rowSize width + x))) ∧
    (uploadTrace width height A).filter isBarrierOrCopy =
      [UploadEv.barrier ImgAccess.noAccess ImgAccess.transferWrite
         ImgLayout.undefined ImgLayout.transferDstOptimal,
       UploadEv.copyBufferToImage,
       UploadEv.barrier ImgAccess.transferWrite ImgAccess.shaderRead
         ImgLayout.transferDstOptimal ImgLayout.shaderReadOnlyOptimal] ∧
    (uploadTrace width height A).filter isFenceOrCleanup =
      [UploadEv.createFence, UploadEv.submitOneShot true, UploadEv.waitForFence,
       UploadEv.destroyFence, UploadEv.destroyStagingBuffer, UploadEv.freeCommandBuffer] := by
  refine ⟨rfl, ?_, rfl, rfl⟩
  exact fun y x hy hx =>
    stagingContents_row img width A (rowPitch_ge k A (rowSize width) hA hk hov) height y x hy hx

/-- C5 witness: the theorem at width 3, height 2, alignment 8, with the
identity byte source. -/
theorem c5_upload_protocol_witness :
    (uploadTrace 3 2 8).head? =
      some (UploadEv.createStagingBuffer (rowPitch 8 (rowSize 3) * 2) CPU_VISIBLE) ∧
    (∀ y x, y < 2 → x < rowSize 3 →
      stagingContents (fun n => n) 3 2 8 (y * rowPitch 8 (rowSize 3) + x) =
        some ((fun n => n) (y * rowSize 3 + x))) ∧
    (uploadTrace 3 2 8).filter isBarrierOrCopy =
      [UploadEv.barrier ImgAccess.noAccess ImgAccess.transferWrite
         ImgLayout.undefined ImgLayout.transferDstOptimal,
       UploadEv.copyBufferToImage,
       UploadEv.barrier ImgAccess.transferWrite ImgAccess.shaderRead
         ImgLayout.transferDstOptimal ImgLayout.shaderReadOnlyOptimal] ∧
    (uploadTrace 3 2 8).filter isFenceOrCleanup =
      [UploadEv.createFence, UploadEv.submitOneShot true, UploadEv.waitForFence,
       UploadEv.destroyFence, UploadEv.destroyStagingBuffer, UploadEv.freeCommandBuffer] :=
  c5_upload_protocol 3 2 8 3 (fun n => n) rfl (by decide) (by decide)

theorem memoryTypeMatches_iff (m r id p : Nat) :
    memoryTypeMatches m r id p = true ↔ (m &&& (1 <<< id) ≠ 0 ∧ p &&& r = r) := by
  simp [memoryTypeMatches]

theorem findFrom_some (m r : Nat) :
    ∀ (l : List Nat) (s i : Nat), findMemoryTypeIdFrom m r s l = some i →
      s ≤ i ∧ i - s < l.length ∧
      (∃ p, l[i - s]? = some p ∧ memoryTypeMatches m r i p = true) ∧
      (∀ j q, s ≤ j → j < i → l[j - s]? = some q → memoryTypeMatches m r j q = false) := by
  intro l
  induction l with
  | nil => intro s i h; simp [findMemoryTypeIdFrom] at h
  | cons p rest ih =>
    intro s i h
    simp only [findMemoryTypeIdFrom] at h
    by_cases hm : memoryTypeMatches m r s p = true
    · rw [if_pos hm] at h
      obtain rfl : s = i := Option.some.inj h
      refine ⟨Nat.le_refl s, by simp, ⟨p, by simp, hm⟩, ?_⟩
      intro j q hj1 hj2 _
      omega
    · rw [if_neg hm] at h
      obtain ⟨h1, h2, ⟨p', hp', hm'⟩, hfirst⟩ := ih (s + 1) i h
      simp only [Bool.not_eq_true] at hm
      refine ⟨by omega, by simp; omega, ⟨p', ?_, hm'⟩, ?_⟩
      · have his : i - s = (i - (s + 1)) + 1 := by omega
        rw [his, List.getElem?_cons_succ]
        exact hp'
      · intro j q hj1 hj2 hq
        by_cases hjs : j = s
        · subst hjs
          have hj0 : j - j = 0 := by omega
          rw [hj0, List.getElem?_cons_zero] at hq
          obtain rfl : p = q := Option.some.inj hq
          exact hm
        · have hjs' : j - s = (j - (s + 1)) + 1 := by omega
          rw [hjs', List.getElem?_cons_succ] at hq
          exact hfirst j q (by omega) hj2 hq

theorem findFrom_none (m r : Nat) :
    ∀ (l : List Nat) (s : Nat), findMemoryTypeIdFrom m r s l = none ↔
      ∀ j q, l[j]? = some q → memoryTypeMatches m r (s + j) q = false := by
  intro l
  induction l with
  | nil => intro s; simp [findMemoryTypeIdFrom]
  | cons p rest ih =>
    intro s
    simp only [findMemoryTypeIdFrom]
    by_cases hm : memoryTypeMatches m r s p = true
    · rw [if_pos hm]
      constructor
      · intro h; exact absurd h (by simp)
      · intro h
        have h0 := h 0 p (by simp)
        rw [Nat.add_zero, hm] at h0
        exact absurd h0 (by simp)
    · rw [if_neg hm, ih (s + 1)]
      simp only [Bool.not_eq_true] at hm
      constructor
      · intro h j q hq
        cases j with
        | zero =>
          rw [List.getElem?_cons_zero] at hq
          obtain rfl : p = q := Option.some.inj hq
          rw [Nat.add_zero]
          exact hm
        | succ j =>
          rw [List.getElem?_cons_succ] at hq
          have := h j q hq
          rw [show s + 1 + j = s + (j + 1) from by omega] at this
          exact this
      · intro h j q hq
        have := h (j + 1) q (by rw [List.getElem?_cons_succ]; exact hq)
        rw [show s + (j + 1) = s + 1 + j from by omega] at this
        exact this

/-- C7: memory-type selection, for both the buffer path (CPU-visible)
and the image path (device-local), picks the first index i whose bit is
set in the requirement mask and whose property flags contain the
required properties; when it returns some i that index satisfies both
conditions and no smaller index does, and it returns none exactly when
no index satisfies both, so an incompatible type is never selected and
the operation fails with an error in that case. -/
theorem c7_memory_type_selection (typeMask required : Nat) (types : List Nat) :
    bufferBundleMemoryTypeId typeMask types = findMemoryTypeId typeMask types CPU_VISIBLE ∧
    loadedImageMemoryTypeId typeMask types = findMemoryTypeId typeMask types DEVICE_LOCAL ∧
    (∀ i, findMemoryTypeId typeMask types required = some i →
      i < types.length ∧ typeMask &&& (1 <<< i) ≠ 0 ∧
      (∃ p, types[i]? = some p ∧ p &&& required = required) ∧
      (∀ j q, j < i → types[j]? = some q →
        ¬ (typeMask &&& (1 <<< j) ≠ 0 ∧ q &&& required = required))) ∧
    (findMemoryTypeId typeMask types required = none ↔
      ∀ j q, types[j]? = some q →
        ¬ (typeMask &&& (1 <<< j) ≠ 0 ∧ q &&& required = required)) := by
  refine ⟨rfl, rfl, ?_, ?_⟩
  · intro i h
    obtain ⟨h1, h2, ⟨p, hp, hm⟩, hfirst⟩ := findFrom_some typeMask required types 0 i h
    rw [Nat.sub_zero] at h2 hp
    obtain ⟨hbit, hprops⟩ := (memoryTypeMatches_iff typeMask required i p).mp hm
    refine ⟨h2, hbit, ⟨p, hp, hprops⟩, ?_⟩
    intro j q hj hq hcon
    have hfalse := hfirst j q (Nat.zero_le j) hj (by rw [Nat.sub_zero]; exact hq)
    have htrue := (memoryTypeMatches_iff typeMask required j q).mpr hcon
    rw [htrue] at hfalse
    exact absurd hfalse (by simp)
  · rw [show findMemoryTypeId typeMask types required =
      findMemoryTypeIdFrom typeMask required 0 types from rfl,
      findFrom_none typeMask required types 0]
    constructor
    · intro h j q hq hcon
      have h0 := h j q hq
      rw [Nat.zero_add] at h0
      have htrue := (memoryTypeMatches_iff typeMask required j q).mpr hcon
      rw [htrue] at h0
      exact absurd h0 (by simp)
    · intro h j q hq
      rw [Nat.zero_add]
      cases hb : memoryTypeMatches typeMask required j q with
      | false => rfl
      | true =>
        exact absurd ((memoryTypeMatches_iff typeMask required j q).mp hb) (h j q hq)

/-- C8: for a surface capability report with at least one image and a
representable u32 image count bound, the chosen swapchain image count is
min(max_images - 1, 3) when the selected present mode is Mailbox and
min(max_images - 1, 2) otherwise, where max_images is the exclusive
upper bound caps.image_count.end. -/
theorem c8_image_count (maxImages : Nat) (pm : PresentMode)
    (h1 : 1 ≤ maxImages) (h2 : maxImages < 2 ^ 32) :
    imageCount maxImages pm =
      min (maxImages - 1) (if pm = PresentMode.mailbox then 3 else 2) := by
  by_cases hpm : pm = PresentMode.mailbox <;> simp [imageCount, hpm] <;> omega

/-- C8 witness: a report allowing up to 5 images with Mailbox present
mode yields an image count of min(4, 3) = 3. -/
theorem c8_image_count_witness :
    imageCount 5 PresentMode.mailbox =
      min (5 - 1) (if PresentMode.mailbox = PresentMode.mailbox then 3 else 2) :=
  c8_image_count 5 PresentMode.mailbox (by decide) (by decide)

/-- C9: the swapchain extent resolved by textures.rs and depth_buffer.rs
is the componentwise minimum of the window client size and the surface's
reported maximum extent: it never exceeds the maximum and equals the
window size whenever that is at most the maximum, but it is NOT raised
to the reported minimum extent (the code never reads caps.extents.start),
and triangle_intro.rs ignores the window size entirely, always using the
reported maximum extent. -/
theorem c9_extent_clamp (capMaxW capMaxH winW winH : Nat) :
    (resolvedExtent capMaxW capMaxH winW winH).1 ≤ capMaxW ∧
    (resolvedExtent capMaxW capMaxH winW winH).1 ≤ winW ∧
    (winW ≤ capMaxW → (resolvedExtent capMaxW capMaxH winW winH).1 = winW) ∧
    (capMaxW ≤ winW → (resolvedExtent capMaxW capMaxH winW winH).1 = capMaxW) ∧
    (resolvedExtent capMaxW capMaxH winW winH).2 ≤ capMaxH ∧
    (resolvedExtent capMaxW capMaxH winW winH).2 ≤ winH ∧
    (winH ≤ capMaxH → (resolvedExtent capMaxW capMaxH winW winH).2 = winH) ∧
    (capMaxH ≤ winH → (resolvedExtent capMaxW capMaxH winW winH).2 = capMaxH) ∧
    triangleIntroExtent capMaxW capMaxH winW winH = (capMaxW, capMaxH) := by
  refine ⟨?_, ?_, ?_, ?_, ?_, ?_, ?_, ?_, rfl⟩ <;> simp [resolvedExtent]

/-- C9 counterexample: with a surface reporting extent bounds 64..4096
and a 32-pixel-wide window, the resolved width is 32, below the reported
minimum 64, so the claimed clamp to the minimum does not happen; and for
an in-bounds 800 by 600 window triangle_intro.rs resolves width 4096,
not the window width. -/
theorem c9_extent_counterexample :
    (resolvedExtent 4096 4096 32 32).1 < 64 ∧
    (triangleIntroExtent 4096 4096 800 600).1 ≠ 800 := by decide

/-- C10: cast_slice returns None exactly when exactly one of the element
sizes is zero, or both are nonzero and U's alignment exceeds T's with a
non-U-aligned pointer, or both are nonzero and the total byte length is
not a multiple of U's size; a returned slice has the same pointer and
views exactly the same bytes, with length size_of T * len / size_of U
for non-zero-sized U.  Unlike the claim, the alignment condition does
not apply when both sizes are zero, because the ZST branch returns
before the alignment check. -/
theorem c10_cast_slice (sizeT alignT sizeU alignU ptr len : Nat) :
    (cast_slice sizeT alignT sizeU alignU ptr len = none ↔
      ((sizeT = 0 ∧ sizeU ≠ 0) ∨ (sizeT ≠ 0 ∧ sizeU = 0) ∨
       (sizeT ≠ 0 ∧ sizeU ≠ 0 ∧ alignT < alignU ∧ ptr % alignU ≠ 0) ∨
       (sizeT ≠ 0 ∧ sizeU ≠ 0 ∧ ¬ (sizeU ∣ sizeT * len)))) ∧
    (∀ q n, cast_slice sizeT alignT sizeU alignU ptr len = some (q, n) →
      q = ptr ∧ sizeU * n = sizeT * len ∧ (sizeU ≠ 0 → n = sizeT * len / sizeU)) := by
  unfold cast_slice
  split_ifs with h1 h2 h3 h4 h5
  · constructor
    · constructor
      · intro hc
        exact absurd hc (by simp)
      · intro hrhs
        exfalso
        rcases hrhs with ⟨ha, hb⟩ | ⟨ha, hb⟩ | ⟨ha, hb, -, -⟩ | ⟨ha, hb, -⟩ <;>
          rcases h1 with h0 | h0 <;> omega
    · intro q n hqn
      have hpl : ptr = q ∧ len = n := by simpa using hqn
      obtain ⟨rfl, rfl⟩ := hpl
      refine ⟨rfl, by rw [h2], ?_⟩
      intro hne
      exfalso
      rcases h1 with h0 | h0 <;> omega
  · constructor
    · constructor
      · intro _
        rcases h1 with h0 | h0
        · exact Or.inl ⟨h0, fun hu => h2 (h0.trans hu.symm)⟩
        · exact Or.inr (Or.inl ⟨fun ht => h2 (ht.trans h0.symm), h0⟩)
      · intro _
        rfl
    · intro q n hqn
      exact absurd hqn (by simp)
  · have h1' := not_or.mp h1
    constructor
    · constructor
      · intro _
        exact Or.inr (Or.inr (Or.inl ⟨h1'.1, h1'.2, h3.1, h3.2⟩))
      · intro _
        rfl
    · intro q n hqn
      exact absurd hqn (by simp)
  · have h1' := not_or.mp h1
    constructor
    · constructor
      · intro hc
        exact absurd hc (by simp)
      · intro hrhs
        exfalso
        rcases hrhs with ⟨ha, hb⟩ | ⟨ha, hb⟩ | ⟨ha, hb, hc, hd⟩ | ⟨ha, hb, hc⟩
        · exact h1'.1 ha
        · exact h1'.2 hb
        · exact h3 ⟨hc, hd⟩
        · exact hc (by rw [h4]; exact dvd_mul_right sizeU len)
    · intro q n hqn
      have hpl : ptr = q ∧ len = n := by simpa using hqn
      obtain ⟨rfl, rfl⟩ := hpl
      refine ⟨rfl, by rw [h4], ?_⟩
      intro hne
      rw [h4]
      exact (Nat.mul_div_cancel_left len (Nat.pos_of_ne_zero hne)).symm
  · have h1' := not_or.mp h1
    constructor
    · constructor
      · intro _
        refine Or.inr (Or.inr (Or.inr ⟨h1'.1, h1'.2, ?_⟩))
        intro hdvd
        obtain ⟨c, hc⟩ := hdvd
        rw [hc] at h5
        simp [Nat.mul_mod_right] at h5
      · intro _
        rfl
    · intro q n hqn
      exact absurd hqn (by simp)
  · have h1' := not_or.mp h1
    have hmod : sizeT * len % sizeU = 0 := by omega
    constructor
    · constructor
      · intro hc
        exact absurd hc (by simp)
      · intro hrhs
        exfalso
        rcases hrhs with ⟨ha, hb⟩ | ⟨ha, hb⟩ | ⟨ha, hb, hc, hd⟩ | ⟨ha, hb, hc⟩
        · exact h1'.1 ha
        · exact h1'.2 hb
        · exact h3 ⟨hc, hd⟩
        · exact hc (Nat.dvd_of_mod_eq_zero hmod)
    · intro q n hqn
      have hpl : ptr = q ∧ sizeT * len / sizeU = n := by simpa using hqn
      obtain ⟨rfl, rfl⟩ := hpl
      exact ⟨rfl, Nat.mul_div_cancel' (Nat.dvd_of_mod_eq_zero hmod), fun _ => rfl⟩

/-- C10 counterexample: T and U both zero-sized, align_of T = 1,
align_of U = 4, a 5-element slice at pointer 1 (valid and aligned for
T): U's alignment exceeds T's and the pointer is not U-aligned, so the
claim requires None, yet cast_slice returns Some with the length kept,
because the ZST branch returns before the alignment check. -/
theorem c10_zst_alignment_counterexample :
    (1 < 4 ∧ 1 % 4 ≠ 0) ∧ cast_slice 0 1 0 4 1 5 = some (1, 5) := by decide
